import Mathlib

/-
Shallow embedding of envconsul's cli.go (package main) and, where the
repository source is absent, of the spec's Merger/KeyTransform component.

The Go const block in cli.go reads

  const (
    ExitCodeOK int = 0

    // Errors start at 10
    ExitCodeError = 10 + iota
    ExitCodeInterrupt
    ...
  )

In Go, iota is the index of the ConstSpec inside the const declaration, and
the `ExitCodeOK int = 0` line is ConstSpec number 0, so at the
`ExitCodeError = 10 + iota` line iota is already 1.  The actual values are
therefore 11..18, one above what the comment "Errors start at 10" announces.
The definitions below embed the values the compiled Go program really has.
-/

namespace Envconsul

/-- Go errors are modelled by their message string. -/
abbrev GoError := String

/-- cli.go const block: ExitCodeOK int = 0 (ConstSpec 0, iota 0). -/
def ExitCodeOK : Int := 0

/-- cli.go const block: ExitCodeError = 10 + iota, with iota = 1 there. -/
def ExitCodeError : Int := 10 + 1

/-- cli.go const block, ConstSpec 2: iota = 2. -/
def ExitCodeInterrupt : Int := 10 + 2

/-- cli.go const block, ConstSpec 3: iota = 3. -/
def ExitCodeLoggingError : Int := 10 + 3

/-- cli.go const block, ConstSpec 4: iota = 4. -/
def ExitCodeParseFlagsError : Int := 10 + 4

/-- cli.go const block, ConstSpec 5: iota = 5. -/
def ExitCodeParseConfigError : Int := 10 + 5

/-- cli.go const block, ConstSpec 6: iota = 6. -/
def ExitCodeRunnerError : Int := 10 + 6

/-- cli.go const block, ConstSpec 7: iota = 7. -/
def ExitCodeConsulAPIError : Int := 10 + 7

/-- cli.go const block, ConstSpec 8: iota = 8. -/
def ExitCodeWatcherError : Int := 10 + 8

/-- The statuses CLI.Run returns for internal faults (every return of Run
that is not ExitCodeOK and not the child's own exit code). -/
def internalExitCodes : List Int :=
  [ExitCodeError, ExitCodeInterrupt, ExitCodeLoggingError,
   ExitCodeParseFlagsError, ExitCodeParseConfigError, ExitCodeRunnerError,
   ExitCodeConsulAPIError, ExitCodeWatcherError]

/-- OS signals, as far as CLI.Run distinguishes them: the three signals of
the `case syscall.SIGINT, syscall.SIGTERM, syscall.SIGQUIT` switch arm, a
few other named signals, and an anonymous remainder. -/
inductive Sig where
  | SIGINT
  | SIGTERM
  | SIGQUIT
  | SIGHUP
  | SIGUSR1
  | SIGUSR2
  | other (n : Nat)
deriving DecidableEq, Repr

/-- The guard of the switch arm in CLI.Run's signal case:
`case syscall.SIGINT, syscall.SIGTERM, syscall.SIGQUIT`. -/
def isInterruptSig : Sig → Bool
  | .SIGINT => true
  | .SIGTERM => true
  | .SIGQUIT => true
  | _ => false

/-- One delivery on one of the five channels CLI.Run's select waits on. -/
inductive RunnerEvent where
  | errEvent (e : GoError)
  | doneEvent
  | exitEvent (code : Int)
  | signalEvent (s : Sig)
  | cliStopEvent
deriving DecidableEq, Repr

/-- Observable side effects accumulated by the select loop: whether
runner.Stop() was called, the signals relayed through runner.Signal, and the
error messages logged through cli.handleError. -/
structure LoopState where
  runnerStopped : Bool
  signalsForwarded : List Sig
  loggedErrs : List String
deriving DecidableEq, Repr

/-- The loop state at the moment the select loop is entered. -/
def initLoopState : LoopState := ⟨false, [], []⟩

/-- One iteration of the select loop in CLI.Run (cli.go lines 119-148).
Returns the exit status when the iteration executes a `return`, none when it
falls through to the next iteration, together with the updated effects. -/
def loopStep (st : LoopState) : RunnerEvent → Option Int × LoopState
  | .errEvent e =>
      (some ExitCodeRunnerError, { st with loggedErrs := st.loggedErrs ++ [e] })
  | .doneEvent => (some ExitCodeOK, st)
  | .exitEvent code =>
      let st1 := { st with runnerStopped := true }
      if code = ExitCodeOK then
        (some ExitCodeOK, st1)
      else
        (some code,
         { st1 with loggedErrs := st1.loggedErrs ++
            ["unexpected exit from subprocess (" ++ toString code ++ ")"] })
  | .signalEvent s =>
      let st1 := { st with signalsForwarded := st.signalsForwarded ++ [s] }
      if isInterruptSig s then
        (some ExitCodeInterrupt, { st1 with runnerStopped := true })
      else
        (none, st1)
  | .cliStopEvent => (some ExitCodeOK, st)

/-- The select loop of CLI.Run, fed the sequence of channel deliveries in
the order the select statement picks them up.  Returns none when the whole
sequence is consumed without a `return` (the loop is still blocked). -/
def eventLoop (st : LoopState) : List RunnerEvent → Option Int × LoopState
  | [] => (none, st)
  | ev :: rest =>
      match loopStep st ev with
      | (some code, st1) => (some code, st1)
      | (none, st1) => eventLoop st1 rest

/-- The fields of the CLI struct that cli.stop touches: the stopped flag and
the number of close() calls issued on stopCh. -/
structure CLIStop where
  stopped : Bool
  stopChCloseCount : Nat
deriving DecidableEq, Repr

/-- cli.stop (cli.go lines 152-162): under the mutex, return early when
already stopped, otherwise close stopCh and set the flag. -/
def CLI.stop (cli : CLIStop) : CLIStop :=
  if cli.stopped then cli
  else { stopped := true, stopChCloseCount := cli.stopChCloseCount + 1 }

/-- The slice of the Config struct that steers CLI.Run's control flow: the
configured prefixes (each identified by its path string, as the spec's
Prefix data model prescribes). -/
structure Config where
  Prefixes : List String
deriving DecidableEq, Repr

/-- The quadruple cli.parseFlags hands back on success:
(config, flags.Args(), once, version). -/
structure ParsedFlags where
  config : Config
  parsedArgs : List String
  once : Bool
  version : Bool
deriving DecidableEq, Repr

/-- Everything observable about one CLI.Run invocation: the returned exit
status (none while the select loop is still blocked), whether NewRunner
succeeded and runner.Start was launched, the prefixes and command handed to
NewRunner (none when NewRunner was never reached), whether the version
banner was written to errStream, the message logged by a startup
handleError call, and the select-loop effects. -/
structure RunTrace where
  exit : Option Int
  runnerCreated : Bool
  runnerPrefixes : Option (List String)
  runnerCommand : Option (List String)
  versionPrinted : Bool
  loggedErr : Option String
  loop : LoopState
deriving DecidableEq, Repr

/-- cli.go lines 87-106: pick the command to supervise.  When prefixes are
already configured the whole positional-argument list is the command;
otherwise (deprecated path) at least two positional arguments are required,
the first is parsed as a store-key prefix via dep.ParseStoreKeyPrefix (the
external parameter psk) and appended to config.Prefixes, and the rest is
the command.  Errors carry the exit status CLI.Run returns for them. -/
def resolveCommand (config : Config) (parsedArgs : List String)
    (psk : String → Except GoError String) :
    Except (Int × GoError) (Config × List String) :=
  if config.Prefixes.length > 0 then
    .ok (config, parsedArgs)
  else
    match parsedArgs with
    | pRaw :: c0 :: cs =>
        match psk pRaw with
        | .error e => .error (ExitCodeError, e)
        | .ok p =>
            .ok ({ config with Prefixes := config.Prefixes ++ [p] }, c0 :: cs)
    | _ =>
        .error (ExitCodeParseFlagsError,
                "cli: missing required arguments prefix and command")

/-- CLI.Run (cli.go lines 60-149), with its external collaborators passed
in as parameters: the outcome of cli.parseFlags, the outcome of
logging.Setup, dep.ParseStoreKeyPrefix, NewRunner (returning some error on
failure, none on success), and the sequence of channel deliveries the
select loop will observe. -/
def CLI.Run (parseRes : Except GoError ParsedFlags)
    (loggingRes : Except GoError Unit)
    (psk : String → Except GoError String)
    (newRunner : Config → List String → Bool → Option GoError)
    (events : List RunnerEvent) : RunTrace :=
  match parseRes with
  | .error e =>
      { exit := some ExitCodeParseFlagsError, runnerCreated := false,
        runnerPrefixes := none, runnerCommand := none,
        versionPrinted := false, loggedErr := some e, loop := initLoopState }
  | .ok pf =>
      match loggingRes with
      | .error e =>
          { exit := some ExitCodeLoggingError, runnerCreated := false,
            runnerPrefixes := none, runnerCommand := none,
            versionPrinted := false, loggedErr := some e,
            loop := initLoopState }
      | .ok _ =>
          if pf.version then
            { exit := some ExitCodeOK, runnerCreated := false,
              runnerPrefixes := none, runnerCommand := none,
              versionPrinted := true, loggedErr := none,
              loop := initLoopState }
          else
            match resolveCommand pf.config pf.parsedArgs psk with
            | .error (code, e) =>
                { exit := some code, runnerCreated := false,
                  runnerPrefixes := none, runnerCommand := none,
                  versionPrinted := false, loggedErr := some e,
                  loop := initLoopState }
            | .ok (config, command) =>
                match newRunner config command pf.once with
                | some e =>
                    { exit := some ExitCodeRunnerError, runnerCreated := false,
                      runnerPrefixes := some config.Prefixes,
                      runnerCommand := some command,
                      versionPrinted := false, loggedErr := some e,
                      loop := initLoopState }
                | none =>
                    let r := eventLoop initLoopState events
                    { exit := r.1, runnerCreated := true,
                      runnerPrefixes := some config.Prefixes,
                      runnerCommand := some command,
                      versionPrinted := false, loggedErr := none,
                      loop := r.2 }

/-- Modelled from the spec: the repository source under src/ holds only
cli.go, so the Sanitizer/KeyTransform of spec section 4.2 is absent.  A
character outside [A-Za-z0-9_] is replaced with an underscore. -/
def sanitizeChar (c : Char) : Char :=
  if c.isAlphanum ∨ c = '_' then c else '_'

/-- Modelled from the spec: section 4.2, pure function
transform(path, sanitize, upcase).  When the sanitize flag is set every
character not in [A-Za-z0-9_] becomes an underscore; when the upcase flag
is set the result is uppercased after sanitization. -/
def transformKey (doSanitize doUpcase : Bool) (path : String) : String :=
  let s := if doSanitize then String.map sanitizeChar path else path
  if doUpcase then s.toUpper else s

/-- Modelled from the spec: section 4.3 Merger, absent from src/.  Given the
ordered prefix list and the latest KVSnapshot per prefix (a snapshot is an
ordered list of key-path/value pairs; an absent snapshot is the empty
list), iterate the prefixes in configured order and insert every key
post-transform into the result, later insertions overwriting earlier ones
on name collision.  The EnvironmentMap is represented as the lookup
function from sanitized names to values. -/
def mergeEnv (t : String → String) (configured : List String)
    (snap : String → List (String × String)) : String → Option String :=
  configured.foldl
    (fun m p =>
      (snap p).foldl
        (fun m kv => fun n => if t kv.1 = n then some kv.2 else m n) m)
    (fun _ => none)

/-- Rightmost entry of one snapshot whose transformed key is the name. -/
def lookupRightmost (t : String → String) (n : String) :
    List (String × String) → Option String
  | [] => none
  | kv :: rest =>
      match lookupRightmost t n rest with
      | some v => some v
      | none => if t kv.1 = n then some kv.2 else none

/-- The claim's reading of the merge result, written independently of the
fold: the rightmost entry of the latest snapshot of the last (right-most)
configured prefix that defines a key mapping to the name.  Later prefixes
are inspected first; inside one snapshot later entries are inspected
first. -/
def lastDefined (t : String → String) (configured : List String)
    (snap : String → List (String × String)) (n : String) : Option String :=
  match configured with
  | [] => none
  | p :: rest =>
      match lastDefined t rest snap n with
      | some v => some v
      | none => lookupRightmost t n (snap p)

/-
Theorems.
-/

/-- Folding one snapshot over an accumulator map: the result at a name is
the rightmost matching entry of the snapshot, falling back to the
accumulator. -/
theorem snapFold_eq (t : String → String) (l : List (String × String))
    (m : String → Option String) (n : String) :
    (l.foldl (fun m kv => fun x => if t kv.1 = x then some kv.2 else m x) m) n
      = match lookupRightmost t n l with
        | some v => some v
        | none => m n := by
  induction l generalizing m with
  | nil => simp [lookupRightmost]
  | cons kv rest ih =>
      simp only [List.foldl_cons, lookupRightmost]
      rw [ih]
      cases hr : lookupRightmost t n rest with
      | some v => rfl
      | none =>
          by_cases hk : t kv.1 = n
          · simp [if_pos hk]
          · simp [if_neg hk]

/-- Folding the whole prefix list: the result at a name is the claim-side
lastDefined value, falling back to the initial accumulator. -/
theorem mergeFold_eq (t : String → String) (configured : List String)
    (snap : String → List (String × String)) (m : String → Option String)
    (n : String) :
    (configured.foldl
       (fun m p =>
         (snap p).foldl
           (fun m kv => fun x => if t kv.1 = x then some kv.2 else m x) m)
       m) n
      = match lastDefined t configured snap n with
        | some v => some v
        | none => m n := by
  induction configured generalizing m with
  | nil => simp [lastDefined]
  | cons p rest ih =>
      simp only [List.foldl_cons, lastDefined]
      rw [ih, snapFold_eq]
      cases lastDefined t rest snap n with
      | some v => rfl
      | none => cases lookupRightmost t n (snap p) <;> rfl

/-- C8: merging the latest snapshots of all configured prefixes yields, for
each sanitized name, the value of the rightmost matching entry of the
latest snapshot of the last (right-most) configured prefix defining a key
that maps to that name; in particular, with prefixes A and B whose latest
snapshots both define key x, the merged map holds B's value. -/
theorem merge_last_prefix_wins :
    (∀ (doSanitize doUpcase : Bool) (configured : List String)
       (snap : String → List (String × String)) (n : String),
       mergeEnv (transformKey doSanitize doUpcase) configured snap n
         = lastDefined (transformKey doSanitize doUpcase) configured snap n) ∧
    mergeEnv (transformKey false false) ["A", "B"]
      (fun p => if p = "A" then [("x", "1")]
                else if p = "B" then [("x", "2")] else []) "x"
      = some "2" := by
  constructor
  · intro doSanitize doUpcase configured snap n
    have h := mergeFold_eq (transformKey doSanitize doUpcase) configured snap
      (fun _ => none) n
    unfold mergeEnv
    rw [h]
    cases lastDefined (transformKey doSanitize doUpcase) configured snap n <;> rfl
  · decide

/-- C1: a child-exit event always ends the select loop: runner.Stop() is
called first, a zero exit code makes Run return ExitCodeOK, a nonzero exit
code is returned verbatim as the CLI's exit status, and the remaining
events are never processed; ExitCodeOK is 0, and the same statuses surface
through CLI.Run when a runner is active. -/
theorem childExit_code_surfaced :
    (∀ (st : LoopState) (code : Int) (rest : List RunnerEvent),
       eventLoop st (RunnerEvent.exitEvent code :: rest)
         = (some (if code = ExitCodeOK then ExitCodeOK else code),
            { runnerStopped := true,
              signalsForwarded := st.signalsForwarded,
              loggedErrs :=
                if code = ExitCodeOK then st.loggedErrs
                else st.loggedErrs ++
                  ["unexpected exit from subprocess (" ++ toString code ++ ")"] })) ∧
    ExitCodeOK = 0 ∧
    (∀ (pfx1 : String) (args : List String) (once : Bool)
       (psk : String → Except GoError String) (code : Int)
       (rest : List RunnerEvent),
       (CLI.Run (Except.ok ⟨⟨[pfx1]⟩, args, once, false⟩) (Except.ok ())
          psk (fun _ _ _ => none)
          (RunnerEvent.exitEvent code :: rest)).exit
         = some (if code = ExitCodeOK then ExitCodeOK else code)) := by
  refine ⟨?_, rfl, ?_⟩
  · intro st code rest
    by_cases hc : code = ExitCodeOK <;> simp [eventLoop, loopStep, hc]
  · intro pfx1 args once psk code rest
    by_cases hc : code = ExitCodeOK <;>
      simp [CLI.Run, resolveCommand, eventLoop, loopStep, hc]

/-- C5: when the runner's done channel fires, the select loop returns
ExitCodeOK (which is 0) at once: no handleError call, no runner.Stop, no
further event is processed, the loop effects are exactly what they were. -/
theorem done_returns_ok :
    (∀ (st : LoopState) (rest : List RunnerEvent),
       eventLoop st (RunnerEvent.doneEvent :: rest) = (some ExitCodeOK, st)) ∧
    ExitCodeOK = 0 := by
  refine ⟨?_, rfl⟩
  intro st rest
  simp [eventLoop, loopStep]

/-- C3: every signal delivered while the runner is active is relayed via
runner.Signal; on SIGINT, SIGTERM or SIGQUIT the loop additionally calls
runner.Stop() and returns ExitCodeInterrupt, and on every other signal the
loop state is otherwise unchanged and the loop keeps waiting.  The status
returned on an interrupt signal, however, is ExitCodeInterrupt = 12, not
the 11 the claim announces: the iota in the cli.go const block is already 1
at the `ExitCodeError = 10 + iota` line, contradicting the source comment
that errors start at 10. -/
theorem signal_forward_and_interrupt :
    (∀ (st : LoopState) (s : Sig) (rest : List RunnerEvent),
       eventLoop st (RunnerEvent.signalEvent s :: rest)
         = if isInterruptSig s then
             (some ExitCodeInterrupt,
              { runnerStopped := true,
                signalsForwarded := st.signalsForwarded ++ [s],
                loggedErrs := st.loggedErrs })
           else
             eventLoop
               { runnerStopped := st.runnerStopped,
                 signalsForwarded := st.signalsForwarded ++ [s],
                 loggedErrs := st.loggedErrs } rest) ∧
    ExitCodeInterrupt = 12 ∧
    (eventLoop initLoopState [RunnerEvent.signalEvent Sig.SIGINT]).1 = some 12 := by
  refine ⟨?_, rfl, rfl⟩
  intro st s rest
  cases hs : isInterruptSig s <;> simp [eventLoop, loopStep, hs]

/-- C4: a delivery on the runner's error channel ends the select loop with
ExitCodeRunnerError whatever error message it carries, logging that
message; a NewRunner failure yields the same ExitCodeRunnerError before any
runner is started.  The value of ExitCodeRunnerError, however, is 16, not
the 15 the claim announces (iota off-by-one in the cli.go const block). -/
theorem runnerError_exitstatus :
    (∀ (st : LoopState) (e : GoError) (rest : List RunnerEvent),
       eventLoop st (RunnerEvent.errEvent e :: rest)
         = (some ExitCodeRunnerError,
            { runnerStopped := st.runnerStopped,
              signalsForwarded := st.signalsForwarded,
              loggedErrs := st.loggedErrs ++ [e] })) ∧
    (∀ (pfx1 : String) (args : List String) (once : Bool)
       (psk : String → Except GoError String) (e : GoError)
       (events : List RunnerEvent),
       CLI.Run (Except.ok ⟨⟨[pfx1]⟩, args, once, false⟩) (Except.ok ())
          psk (fun _ _ _ => some e) events
         = { exit := some ExitCodeRunnerError, runnerCreated := false,
             runnerPrefixes := some [pfx1], runnerCommand := some args,
             versionPrinted := false, loggedErr := some e,
             loop := initLoopState }) ∧
    ExitCodeRunnerError = 16 := by
  refine ⟨?_, ?_, rfl⟩
  · intro st e rest
    simp [eventLoop, loopStep]
  · intro pfx1 args once psk e events
    simp [CLI.Run, resolveCommand]

/-- C2 counterexample: a child that exits with code 16 surfaces exactly the
same CLI exit status as an internal runner fault, so the surfaced child
exit codes do collide with the internal fault statuses; moreover the
internal codes are not the claimed 10 through 17 (ExitCodeError is 11 and
ExitCodeWatcherError is 18). -/
theorem childExit_collides_with_internal_fault :
    (eventLoop initLoopState [RunnerEvent.exitEvent 16]).1
      = (eventLoop initLoopState [RunnerEvent.errEvent "watcher failed"]).1 ∧
    (16 : Int) ≠ ExitCodeOK ∧ ExitCodeError ≠ 10 ∧ ExitCodeWatcherError ≠ 17 := by
  refine ⟨rfl, by decide, by decide, by decide⟩

/-- C2 amended: the child's exit code is surfaced verbatim (zero maps to
ExitCodeOK), so the surfaced status is distinguishable from every internal
fault status exactly when the child's exit code lies outside the internal
codes 11 through 18. -/
theorem childExit_distinct_outside_internal_range (c : Int)
    (h : c ∉ internalExitCodes) :
    (eventLoop initLoopState [RunnerEvent.exitEvent c]).1
      = some (if c = ExitCodeOK then ExitCodeOK else c) ∧
    ∀ f ∈ internalExitCodes,
      (eventLoop initLoopState [RunnerEvent.exitEvent c]).1 ≠ some f := by
  have h1 : (eventLoop initLoopState [RunnerEvent.exitEvent c]).1
      = some (if c = ExitCodeOK then ExitCodeOK else c) := by
    by_cases hc : c = ExitCodeOK <;> simp [eventLoop, loopStep, hc]
  refine ⟨h1, ?_⟩
  intro f hf hEq
  rw [h1] at hEq
  have hval := Option.some_injective _ hEq
  by_cases hc : c = ExitCodeOK
  · rw [if_pos hc] at hval
    subst hval
    exact absurd hf (by decide)
  · rw [if_neg hc] at hval
    subst hval
    exact h hf

/-- C2 amended, witness at the concrete child exit code 42. -/
theorem childExit_distinct_outside_internal_range_witness :
    (eventLoop initLoopState [RunnerEvent.exitEvent 42]).1
      = some (if (42 : Int) = ExitCodeOK then ExitCodeOK else 42) :=
  (childExit_distinct_outside_internal_range 42 (by decide)).1

/-- C6: cli.stop is idempotent: a second application changes nothing, and
starting from the fresh CLI state (not stopped, stopCh never closed) any
number n of at least one call leaves exactly the effect of one call — the
stopped flag set and stopCh closed exactly once. -/
theorem stop_idempotent :
    (∀ st : CLIStop, CLI.stop (CLI.stop st) = CLI.stop st) ∧
    (∀ n : Nat, 1 ≤ n →
       CLI.stop^[n] ⟨false, 0⟩ = CLI.stop ⟨false, 0⟩ ∧
       CLI.stop ⟨false, 0⟩ = ⟨true, 1⟩) := by
  have hfirst : CLI.stop ⟨false, 0⟩ = ⟨true, 1⟩ := by simp [CLI.stop]
  have hfix : CLI.stop ⟨true, 1⟩ = ⟨true, 1⟩ := by simp [CLI.stop]
  constructor
  · intro st
    by_cases h : st.stopped
    · simp [CLI.stop, h]
    · simp [CLI.stop, h]
  · intro n hn
    obtain ⟨m, rfl⟩ := Nat.exists_eq_add_of_le hn
    refine ⟨?_, hfirst⟩
    rw [Nat.add_comm, Function.iterate_succ_apply, hfirst,
        Function.iterate_fixed hfix]

/-- C6, witness: three consecutive calls from the fresh CLI state have the
effect of a single call, which closes stopCh once and sets the flag. -/
theorem stop_idempotent_witness :
    CLI.stop^[3] ⟨false, 0⟩ = CLI.stop ⟨false, 0⟩ ∧
    CLI.stop ⟨false, 0⟩ = ⟨true, 1⟩ :=
  stop_idempotent.2 3 (by decide)

/-- C7: with no configured prefixes and fewer than two positional
arguments, CLI.Run logs "cli: missing required arguments prefix and
command" and returns ExitCodeParseFlagsError without ever reaching
NewRunner; a flag-parse error returns ExitCodeParseFlagsError whatever the
logging outcome would have been (logging is not yet set up).  The value of
ExitCodeParseFlagsError, however, is 14, not the 13 the claim announces
(iota off-by-one in the cli.go const block). -/
theorem missing_args_parse_flags_error :
    (∀ (psk : String → Except GoError String)
       (nr : Config → List String → Bool → Option GoError)
       (events : List RunnerEvent) (once : Bool),
       CLI.Run (Except.ok ⟨⟨[]⟩, [], once, false⟩) (Except.ok ()) psk nr events
         = { exit := some ExitCodeParseFlagsError, runnerCreated := false,
             runnerPrefixes := none, runnerCommand := none,
             versionPrinted := false,
             loggedErr := some "cli: missing required arguments prefix and command",
             loop := initLoopState } ∧
       ∀ a : String,
         CLI.Run (Except.ok ⟨⟨[]⟩, [a], once, false⟩) (Except.ok ()) psk nr events
           = { exit := some ExitCodeParseFlagsError, runnerCreated := false,
               runnerPrefixes := none, runnerCommand := none,
               versionPrinted := false,
               loggedErr := some "cli: missing required arguments prefix and command",
               loop := initLoopState }) ∧
    (∀ (e : GoError) (loggingRes : Except GoError Unit)
       (psk : String → Except GoError String)
       (nr : Config → List String → Bool → Option GoError)
       (events : List RunnerEvent),
       CLI.Run (Except.error e) loggingRes psk nr events
         = { exit := some ExitCodeParseFlagsError, runnerCreated := false,
             runnerPrefixes := none, runnerCommand := none,
             versionPrinted := false, loggedErr := some e,
             loop := initLoopState }) ∧
    ExitCodeParseFlagsError = 14 := by
  refine ⟨?_, ?_, rfl⟩
  · intro psk nr events once
    constructor
    · simp [CLI.Run, resolveCommand]
    · intro a
      simp [CLI.Run, resolveCommand]
  · intro e loggingRes psk nr events
    simp [CLI.Run]

/-- C9: when the version flag is set and both flag parsing and logging
setup succeed, CLI.Run prints the version banner to the error stream and
returns ExitCodeOK (0) without reaching NewRunner; a flag-parse error
pre-empts the version request with ExitCodeParseFlagsError, and a
logging-setup error pre-empts it with ExitCodeLoggingError, neither
printing the banner. -/
theorem version_flag_behavior :
    (∀ (cfg : Config) (args : List String) (once : Bool)
       (psk : String → Except GoError String)
       (nr : Config → List String → Bool → Option GoError)
       (events : List RunnerEvent),
       CLI.Run (Except.ok ⟨cfg, args, once, true⟩) (Except.ok ()) psk nr events
         = { exit := some ExitCodeOK, runnerCreated := false,
             runnerPrefixes := none, runnerCommand := none,
             versionPrinted := true, loggedErr := none,
             loop := initLoopState }) ∧
    (∀ (e : GoError) (loggingRes : Except GoError Unit)
       (psk : String → Except GoError String)
       (nr : Config → List String → Bool → Option GoError)
       (events : List RunnerEvent),
       (CLI.Run (Except.error e) loggingRes psk nr events).exit
           = some ExitCodeParseFlagsError ∧
       (CLI.Run (Except.error e) loggingRes psk nr events).versionPrinted
           = false) ∧
    (∀ (cfg : Config) (args : List String) (once : Bool) (e : GoError)
       (psk : String → Except GoError String)
       (nr : Config → List String → Bool → Option GoError)
       (events : List RunnerEvent),
       CLI.Run (Except.ok ⟨cfg, args, once, true⟩) (Except.error e) psk nr events
         = { exit := some ExitCodeLoggingError, runnerCreated := false,
             runnerPrefixes := none, runnerCommand := none,
             versionPrinted := false, loggedErr := some e,
             loop := initLoopState }) ∧
    ExitCodeOK = 0 := by
  refine ⟨?_, ?_, ?_, rfl⟩
  · intro cfg args once psk nr events
    simp [CLI.Run]
  · intro e loggingRes psk nr events
    constructor <;> simp [CLI.Run]
  · intro cfg args once e psk nr events
    simp [CLI.Run]

/-- C10: with at least one configured prefix, all positional arguments form
the supervised command; otherwise the first positional argument is parsed
as a store-key prefix, appended to the configuration's prefix list, and the
rest form the command; when that prefix fails to parse CLI.Run returns
ExitCodeError without reaching NewRunner.  The value of ExitCodeError,
however, is 11, not the 10 the claim announces (iota off-by-one in the
cli.go const block). -/
theorem command_resolution :
    (∀ (p : String) (ps : List String) (args : List String) (once : Bool)
       (psk : String → Except GoError String) (events : List RunnerEvent),
       CLI.Run (Except.ok ⟨⟨p :: ps⟩, args, once, false⟩) (Except.ok ())
          psk (fun _ _ _ => none) events
         = { exit := (eventLoop initLoopState events).1, runnerCreated := true,
             runnerPrefixes := some (p :: ps), runnerCommand := some args,
             versionPrinted := false, loggedErr := none,
             loop := (eventLoop initLoopState events).2 }) ∧
    (∀ (f : String → String) (pRaw c0 : String) (cs : List String)
       (once : Bool) (events : List RunnerEvent),
       CLI.Run (Except.ok ⟨⟨[]⟩, pRaw :: c0 :: cs, once, false⟩) (Except.ok ())
          (fun s => Except.ok (f s)) (fun _ _ _ => none) events
         = { exit := (eventLoop initLoopState events).1, runnerCreated := true,
             runnerPrefixes := some [f pRaw], runnerCommand := some (c0 :: cs),
             versionPrinted := false, loggedErr := none,
             loop := (eventLoop initLoopState events).2 }) ∧
    (∀ (g : String → GoError) (pRaw c0 : String) (cs : List String)
       (once : Bool) (events : List RunnerEvent)
       (nr : Config → List String → Bool → Option GoError),
       CLI.Run (Except.ok ⟨⟨[]⟩, pRaw :: c0 :: cs, once, false⟩) (Except.ok ())
          (fun s => Except.error (g s)) nr events
         = { exit := some ExitCodeError, runnerCreated := false,
             runnerPrefixes := none, runnerCommand := none,
             versionPrinted := false, loggedErr := some (g pRaw),
             loop := initLoopState }) ∧
    ExitCodeError = 11 := by
  refine ⟨?_, ?_, ?_, rfl⟩
  · intro p ps args once psk events
    simp [CLI.Run, resolveCommand]
  · intro f pRaw c0 cs once events
    simp [CLI.Run, resolveCommand]
  · intro g pRaw c0 cs once events nr
    simp [CLI.Run, resolveCommand]

end Envconsul
